import Mathlib

/-!
Verification development for the jira-helpers repository.

We give a shallow embedding of the pure decision logic of the three core
modules and prove (or refute) the specified properties against it:

* `src/update_children.py` — the recursive child reconciler
  (`UpdateChildren.update_child`, `UpdateChildren.walk_children`);
* `src/helpers/create_assign.py` — the duty rotation planner
  (`CreateAndAssignTasks.run`, `CreateAndAssignTasks.create_and_assign_issue`);
* `src/helpers/jira_connector.py` — the configuration resolver
  (`JiraConnector._read_from_yaml_or_environment` and the typed readers,
  `JiraConnector.__init__`).

Field values of an issue (components, labels, fixVersions) are modelled as
finite sets of names, matching the set-level reconciliation the source
performs with Python set unions (order of the resulting lists is
irrelevant to every property considered here).  Mutating tracker calls are
reified as an explicit list of `TrackerOp` values so that write-freedom of
dry runs is a statement about an empty operation list.
-/

/-- The three reconcilable field collections of an issue, each as a set of
names.  Mirrors `child.fields.components` / `.labels` / `.fixVersions` in
`update_children.py`, with components and versions identified by name. -/
structure IssueFields where
  components : Finset String
  labels : Finset String
  fixVersions : Finset String
deriving DecidableEq

/-- The command-line arguments of `UpdateChildren` that `update_child`
consults: the `-o` (`--overwrite`) field list, the `-a` (`--append`) field list and
the dry-run flag.  `argparse` yields `None` or a list; `None` and `[]` are
both falsy in the guards of lines 96-111, so both are modelled as `[]`. -/
structure Args where
  overwrite : List String
  append : List String
  dry_run : Bool
deriving DecidableEq

/-- Source `update_children.py` lines 96-101: the to-be components.  Under
`-o components` the root components are copied; under `-a components` the
set union `set(root_components).union(child_components)` is taken;
otherwise the accumulator stays the empty list. -/
def to_be_components (args : Args) (root child : IssueFields) : Finset String :=
  if args.overwrite ≠ [] ∧ "components" ∈ args.overwrite then
    root.components
  else if args.append ≠ [] ∧ "components" ∈ args.append then
    root.components ∪ child.components
  else ∅

/-- Source `update_children.py` lines 103-106: the to-be labels.  Under
`-o labels` the source computes `list(set(root_labels).union(child_labels))`;
under `-a labels` it computes `list(root_labels)`; otherwise the
accumulator stays the empty list. -/
def to_be_labels (args : Args) (root child : IssueFields) : Finset String :=
  if args.overwrite ≠ [] ∧ "labels" ∈ args.overwrite then
    root.labels ∪ child.labels
  else if args.append ≠ [] ∧ "labels" ∈ args.append then
    root.labels
  else ∅

/-- Source `update_children.py` lines 108-111: the to-be fix versions.  Under
`-o versions` the source computes the union of root and child versions;
under `-a versions` it computes `list(root_versions)`; otherwise the
accumulator stays the empty list. -/
def to_be_versions (args : Args) (root child : IssueFields) : Finset String :=
  if args.overwrite ≠ [] ∧ "versions" ∈ args.overwrite then
    root.fixVersions ∪ child.fixVersions
  else if args.append ≠ [] ∧ "versions" ∈ args.append then
    root.fixVersions
  else ∅

/-- The payload of the abstract `issue_data` method of
`CreateAndAssignTasks`: subclasses build a concrete issue body from the
sprint name, the queue index and the formatted slot start date, so the
model records exactly those arguments. -/
structure IssueData where
  sname : String
  idx : Nat
  slotDate : Int
deriving DecidableEq

/-- A mutating tracker call, reified.  `update_fields` is
`child.update(fields=...)` resp. `created.update(...)`, `create_issue` is
`jira.create_issue`, `assign` is `jira.assign_issue`, `set_sprint` is the
`customfield_10020` patch; `add_comment` and `transition` are the writes of
the stale-orphan closer, emitted by neither module considered here. -/
inductive TrackerOp where
  | update_fields (fields : IssueFields)
  | create_issue (data : IssueData)
  | assign (email : String)
  | set_sprint (sprintId : Nat)
  | add_comment (text : String)
  | transition (status : String)
deriving DecidableEq

/-- Tracker state, abstracted as the sequence of mutating calls it has
absorbed. -/
structure TrackerState where
  log : List TrackerOp
deriving DecidableEq

/-- Applying a batch of mutating calls to the tracker. -/
def applyOps (st : TrackerState) (ops : List TrackerOp) : TrackerState :=
  ⟨st.log ++ ops⟩

/-- Model of `UpdateChildren.update_child` (lines 76-131): computes the to-be value
of every field and then either only prints (dry run: the child is left as
is and no mutating call is made) or issues one `child.update` carrying all
three fields.  Returns the resulting child fields and the emitted
mutating calls. -/
def update_child (args : Args) (root child : IssueFields) :
    IssueFields × List TrackerOp :=
  if args.dry_run then
    (child, [])
  else
    let data : IssueFields :=
      { components := to_be_components args root child
        labels := to_be_labels args root child
        fixVersions := to_be_versions args root child }
    (data, [TrackerOp.update_fields data])




/-!
### The recursive child walk

`UpdateChildren.walk_children` (lines 133-143) queries the tracker for the
issues whose parent is the current node, appends each to `self.children`
and recurses into it.  A consistent tracker parent relation induces a
finite rose tree per root, which we model with the mutual pair
`ITree` / `IForest`; the query `search_issues(parent=k)` returns exactly
the children recorded in the tree.
-/

mutual
/-- An issue together with the finite tree of its descendants, as induced
by the parent links of the tracker. -/
inductive ITree where
  | node (key : String) (children : IForest)
deriving DecidableEq

/-- A finite list of issue trees (the result of one `parent=` query). -/
inductive IForest where
  | nil
  | cons (head : ITree) (tail : IForest)
deriving DecidableEq
end

/-- The key of the root issue of a tree. -/
def ITree.key : ITree → String
  | .node k _ => k

mutual
/-- Model of `UpdateChildren.walk_children`: for each child returned by the
`parent=` query, append its key to `self.children` and recurse.  The
returned list is the final contents of `self.children` in append order. -/
def walk_children : ITree → List String
  | .node _ cs => walkForest cs

/-- The loop body of `walk_children` over one query result. -/
def walkForest : IForest → List String
  | .nil => []
  | .cons c cs => c.key :: walk_children c ++ walkForest cs
end

mutual
/-- All keys of a tree, root included (specification-side notion of the
set of nodes of the tree). -/
def allKeys : ITree → List String
  | .node k cs => k :: forestKeys cs

/-- All keys of every tree of a forest. -/
def forestKeys : IForest → List String
  | .nil => []
  | .cons c cs => allKeys c ++ forestKeys cs
end

/-!
### The duty rotation planner

`CreateAndAssignTasks.run` (lines 130-228 of `create_assign.py`).  Dates
are modelled as integer day numbers; `startDate + timedelta(days=d)`
becomes integer addition.  The `${sprint_number}` template is modelled as
the text around the placeholder.  The tracker inputs of the run — whether
the epic resolves, the sprint list of the board, and the size of the
existing-duty-issue query result for the starting sprint — are fields of
`PlannerInput`.  Tracker writes are modelled as always succeeding, so the
`JIRAError` handler around issue creation (exit code 10) is never taken.
-/

/-- A sprint as returned by `jira.sprints`: identifier, name, and start
and end instants (in days). -/
structure Sprint where
  id : Nat
  name : String
  startDate : Int
  endDate : Int
deriving DecidableEq

/-- The inputs of one `CreateAndAssignTasks.run`, configuration and
tracker responses together. -/
structure PlannerInput where
  epicFound : Bool
  sprints : List Sprint
  templatePre : String
  templatePost : String
  sprint_starting_number : Nat
  assignee_queue : List String
  existing_in_first : Nat
  dry_run : Bool
deriving DecidableEq

/-- Model of `CreateAndAssignTasks.sprint_name`: substitute
`sprint_starting_number + index` for the placeholder of the template. -/
def sprint_name (inp : PlannerInput) (index : Nat) : String :=
  inp.templatePre ++ toString (inp.sprint_starting_number + index) ++ inp.templatePost

/-- Model of `CreateAndAssignTasks.create_and_assign_issue` (lines 91-106): in dry
run it only logs; otherwise it creates the issue, assigns it, and patches
the sprint custom field. -/
def create_and_assign_issue (dry : Bool) (data : IssueData) (email : String)
    (sprint_id : Nat) : List TrackerOp :=
  if dry then []
  else [TrackerOp.create_issue data, TrackerOp.assign email,
        TrackerOp.set_sprint sprint_id]

/-- One planned duty slot: who, which sprint, which queue index, and the
computed slot start date. -/
structure Slot where
  email : String
  sprintId : Nat
  sprintName : String
  idx : Nat
  slotDate : Int
deriving DecidableEq

/-- The assignment loop of `CreateAndAssignTasks.run` (lines 193-228):
`enumerate(assignee_queue, start_from)` walks every queue entry with a
shifted index.  Per entry: the sprint count is `int(idx / 2)`, the sprint
is looked up by name (missing ⇒ exit code 6, keeping the slots already
made), the slot date is `startDate + 8` days for odd `idx` and
`startDate + 1` day for even `idx`, and `create_and_assign_issue` emits
the writes.  Returns the slots processed, the emitted writes, and the
exit code if the loop aborted. -/
def assign_loop (inp : PlannerInput) (idx : Nat) :
    List String → List Slot × List TrackerOp × Option Nat
  | [] => ([], [], none)
  | mail :: rest =>
    let sname := sprint_name inp (idx / 2)
    match inp.sprints.find? (fun s => s.name == sname) with
    | none => ([], [], some 6)
    | some sprint =>
      let start_date := sprint.startDate + (if idx % 2 == 1 then 8 else 1)
      let data : IssueData := ⟨sname, idx, start_date⟩
      let ops := create_and_assign_issue inp.dry_run data mail sprint.id
      let res := assign_loop inp (idx + 1) rest
      (⟨mail, sprint.id, sname, idx, start_date⟩ :: res.1, ops ++ res.2.1, res.2.2)

/-- The outcome of a run: a Python `exit(code)` or falling off the end. -/
inductive RunResult where
  | exited (code : Nat)
  | finished
deriving DecidableEq

/-- Model of `CreateAndAssignTasks.run`: epic lookup (exit 2 when missing), the
sprint-count guard `len(sprints) < n / 2 + 1` (exit 3; stated over
integers as `2 * len < n + 2`), the starting-sprint lookup by name
(exit 4), the `match` on the number of existing duty issues in the
starting sprint (0 ⇒ start index 0, 1 ⇒ start index 1, more ⇒ exit 5),
then the assignment loop.  Returns the outcome, the slots processed and
the tracker writes emitted. -/
def planner_run (inp : PlannerInput) :
    RunResult × List Slot × List TrackerOp :=
  if !inp.epicFound then (.exited 2, [], [])
  else if 2 * inp.sprints.length < inp.assignee_queue.length + 2 then
    (.exited 3, [], [])
  else
    match inp.sprints.find? (fun s => s.name == sprint_name inp 0) with
    | none => (.exited 4, [], [])
    | some _ =>
      match inp.existing_in_first with
      | 0 =>
        let res := assign_loop inp 0 inp.assignee_queue
        (match res.2.2 with | none => .finished | some c => .exited c,
         res.1, res.2.1)
      | 1 =>
        let res := assign_loop inp 1 inp.assignee_queue
        (match res.2.2 with | none => .finished | some c => .exited c,
         res.1, res.2.1)
      | _ => (.exited 5, [], [])

/-!
### The configuration resolver

`JiraConnector` of `src/helpers/jira_connector.py`.  YAML scalars are
modelled by `YamlValue` together with Python truthiness; the environment
is a partial map from variable names to strings.  Error messages are
abbreviated to their first line.
-/

/-- A value stored under a key of the YAML configuration file (`null`
also stands for an absent key, as `dict.get` returns `None` then). -/
inductive YamlValue where
  | null
  | bool (b : Bool)
  | int (n : Int)
  | str (s : String)
  | list (l : List String)
deriving DecidableEq

/-- Python truthiness of a configuration value: `None`, `False`, `0`,
the empty string and the empty list are falsy. -/
def YamlValue.truthy : YamlValue → Bool
  | .null => false
  | .bool b => b
  | .int n => n != 0
  | .str s => s != ""
  | .list l => !l.isEmpty

/-- Whether a value is a Python `str` (the `isinstance(raw_value, str)`
tests of the typed readers). -/
def YamlValue.isStr : YamlValue → Bool
  | .str _ => true
  | _ => false

/-- The parsed YAML configuration file. -/
structure Yaml where
  entries : List (String × YamlValue)

/-- Lookup `self._yaml_config.get(name)`. -/
def Yaml.get (y : Yaml) (k : String) : YamlValue :=
  ((y.entries.find? (fun e => e.1 == k)).map (fun e => e.2)).getD .null

/-- The process environment. -/
structure Env where
  vars : List (String × String)

/-- Lookup `os.environ.get(k)`. -/
def Env.get (e : Env) (k : String) : Option String :=
  (e.vars.find? (fun v => v.1 == k)).map (fun v => v.2)

/-- First line of the missing-setting error recorded at
`jira_connector.py` line 99. -/
def missingError (name : String) : String :=
  "- " ++ name ++ " setting is missing."

/-- The not-an-integer error recorded at `jira_connector.py` line 141. -/
def notIntError (name : String) : String :=
  "- " ++ name ++ " is not an integer."

/-- Model of `JiraConnector._read_from_yaml_or_environment` (lines 88-104): read
the key from the YAML config; when the value is falsy replace it by the
`JIRA_<NAME>` environment variable (absent ⇒ `None`); when the result is
still falsy record the missing-setting error.  Returns the value and the
errors appended to `self._config_errors`. -/
def read_from_yaml_or_environment (y : Yaml) (env : Env) (name : String) :
    YamlValue × List String :=
  let value := y.get name
  let value :=
    if value.truthy then value
    else
      match env.get ("JIRA_" ++ name.toUpper) with
      | some s => YamlValue.str s
      | none => YamlValue.null
  if value.truthy then (value, []) else (value, [missingError name])

/-- Model of `JiraConnector._read_list_from_yaml_or_environment` (lines 106-118):
a string is split at commas, a list is returned as is, anything else
becomes the empty list. -/
def read_list_from_yaml_or_environment (y : Yaml) (env : Env) (name : String) :
    List String × List String :=
  let res := read_from_yaml_or_environment y env name
  match res.1 with
  | .str s => (s.splitOn ",", res.2)
  | .list l => (l, res.2)
  | _ => ([], res.2)

/-- Model of `JiraConnector._read_str_from_yaml_or_environment` (lines 120-129):
non-strings become the empty string. -/
def read_str_from_yaml_or_environment (y : Yaml) (env : Env) (name : String) :
    String × List String :=
  let res := read_from_yaml_or_environment y env name
  match res.1 with
  | .str s => (s, res.2)
  | _ => ("", res.2)

/-- Model of `JiraConnector._read_int_from_yaml_or_environment` (lines 131-144):
only a `str` value is parsed with `int(...)`; a failed parse records the
not-an-integer error; every non-string value silently becomes `0`. -/
def read_int_from_yaml_or_environment (y : Yaml) (env : Env) (name : String) :
    Int × List String :=
  let res := read_from_yaml_or_environment y env name
  match res.1 with
  | .str s =>
    match s.toInt? with
    | some n => (n, res.2)
    | none => (0, res.2 ++ [notIntError name])
  | _ => (0, res.2)

/-- Model of `JiraConnector._read_bool_from_yaml_or_environment` (lines 146-156):
a string is compared, lower-cased, against the accepted spellings of
true; anything else is treated as falsy. -/
def read_bool_from_yaml_or_environment (y : Yaml) (env : Env) (name : String) :
    Bool × List String :=
  let res := read_from_yaml_or_environment y env name
  match res.1 with
  | .str s => (s.toLower ∈ ["true", "1", "t", "y", "yes"], res.2)
  | _ => (false, res.2)

/-- The reader a `configure()` implementation uses for one setting. -/
inductive SettingKind where
  | str
  | int
  | list
  | bool
deriving DecidableEq

/-- The configuration errors one typed read contributes. -/
def read_setting_errors (y : Yaml) (env : Env) : String × SettingKind → List String
  | (n, .str) => (read_str_from_yaml_or_environment y env n).2
  | (n, .int) => (read_int_from_yaml_or_environment y env n).2
  | (n, .list) => (read_list_from_yaml_or_environment y env n).2
  | (n, .bool) => (read_bool_from_yaml_or_environment y env n).2

/-- The errors accumulated in `self._config_errors` by
`JiraConnector.__init__`: the three base settings (`base_url`,
`username`, `api_token`, read as strings) followed by the settings the
subclass `configure()` reads. -/
def config_errors (y : Yaml) (env : Env)
    (settings : List (String × SettingKind)) : List String :=
  ([("base_url", SettingKind.str), ("username", SettingKind.str),
    ("api_token", SettingKind.str)] ++ settings).flatMap
    (read_setting_errors y env)

/-- The outcome of `JiraConnector.__init__`: abort with the error report
(exit code 1) before contacting the tracker, or proceed to authenticate
and connect. -/
inductive InitResult where
  | exit1 (errors : List String)
  | connected
deriving DecidableEq

/-- Model of `JiraConnector.__init__` (lines 46-75): after reading every setting,
a non-empty error list is printed and the process exits with code 1; the
`JIRA(...)` client is only constructed afterwards, so no tracker contact
happens on the error path. -/
def connector_init (y : Yaml) (env : Env)
    (settings : List (String × SettingKind)) : InitResult :=
  let errs := config_errors y env settings
  if errs.isEmpty then .connected else .exit1 errs

/-!
### Properties of the reconciler update step
-/

/-- Claim C1: the spec states that for every field selected in overwrite
mode the target equals exactly the root value, irrespective of the
prior value of the child.  The code violates this for labels: under
`-o labels` with root labels `{a}` and child labels `{b}` it computes the
union `{a, b}` instead of the copy `{a}`, contradicting the help text of the flag itself ("deletes all attributes in the children that are not present
in the parent"). -/
theorem overwrite_labels_not_exact_copy :
    to_be_labels ⟨["labels"], [], false⟩ ⟨∅, {"a"}, ∅⟩ ⟨∅, {"b"}, ∅⟩ =
      {"a", "b"} ∧
    to_be_labels ⟨["labels"], [], false⟩ ⟨∅, {"a"}, ∅⟩ ⟨∅, {"b"}, ∅⟩ ≠
      ({"a"} : Finset String) := by decide

/-- Claim C2: the spec states that for every field selected in union
(append) mode the target is the set union of root and child values, and
in particular root labels `{a, b}` with child labels `{b, c}` yield
`{a, b, c}`.  The code violates this for labels: under `-a labels` it
computes `list(root_labels)`, dropping the child-only label `c`,
contradicting the help text of the flag ("which fields to add to the
children"). -/
theorem append_labels_drops_child_labels :
    to_be_labels ⟨[], ["labels"], false⟩ ⟨∅, {"a", "b"}, ∅⟩ ⟨∅, {"b", "c"}, ∅⟩ =
      {"a", "b"} ∧
    to_be_labels ⟨[], ["labels"], false⟩ ⟨∅, {"a", "b"}, ∅⟩ ⟨∅, {"b", "c"}, ∅⟩ ≠
      ({"a", "b", "c"} : Finset String) := by decide

/-- Claim C3: the spec states that a field listed in neither selection is
left untouched by the non-dry-run update.  The code violates this: the
update call always carries all three fields, so a field that was never
selected is overwritten with the empty accumulator.  With only
`-o labels` selected and child components `{x}`, the components of the child
are cleared. -/
theorem unlisted_field_cleared :
    (update_child ⟨["labels"], [], false⟩ ⟨∅, {"a"}, ∅⟩ ⟨{"x"}, {"b"}, ∅⟩).1.components =
      (∅ : Finset String) ∧
    (⟨{"x"}, {"b"}, ∅⟩ : IssueFields).components ≠ (∅ : Finset String) := by decide

/-- In dry run the assignment loop emits no tracker writes. -/
theorem assign_loop_ops_dry (inp : PlannerInput) (h : inp.dry_run = true)
    (idx : Nat) (q : List String) : (assign_loop inp idx q).2.1 = [] := by
  induction q generalizing idx with
  | nil => rfl
  | cons mail rest ih =>
    simp only [assign_loop]
    cases hf : inp.sprints.find? (fun s => s.name == sprint_name inp (idx / 2)) with
    | none => rfl
    | some sp =>
      simp only [create_and_assign_issue, h, if_true, List.nil_append]
      exact ih (idx + 1)

/-- In dry run the whole planner run emits no tracker writes. -/
theorem planner_run_ops_dry (inp : PlannerInput) (h : inp.dry_run = true) :
    (planner_run inp).2.2 = [] := by
  unfold planner_run
  split
  · rfl
  · split
    · rfl
    · split
      · rfl
      · split
        · exact assign_loop_ops_dry inp h 0 inp.assignee_queue
        · exact assign_loop_ops_dry inp h 1 inp.assignee_queue
        · rfl

/-- Claim C4: with the dry-run flag set, neither the reconciler update
step nor the planner run invokes any mutating tracker operation; the
child is left as is, and applying the (empty) batches to any tracker
state — even repeatedly — leaves the state unchanged. -/
theorem dry_run_is_write_free (args : Args) (root child : IssueFields)
    (inp : PlannerInput) (h1 : args.dry_run = true) (h2 : inp.dry_run = true) :
    (update_child args root child).2 = [] ∧
    (update_child args root child).1 = child ∧
    (planner_run inp).2.2 = [] ∧
    ∀ st : TrackerState,
      applyOps (applyOps st (update_child args root child).2)
        (planner_run inp).2.2 = st := by
  have hu : update_child args root child = (child, []) := by
    unfold update_child
    rw [h1]
    rfl
  have hp := planner_run_ops_dry inp h2
  refine ⟨by rw [hu], by rw [hu], hp, fun st => ?_⟩
  rw [hu, hp]
  show applyOps (applyOps st []) [] = st
  simp [applyOps]

/-- Closed instance of `dry_run_is_write_free` at a concrete argument
set, tree node and planner input. -/
theorem dry_run_is_write_free_witness :
    (update_child ⟨["labels"], [], true⟩ ⟨∅, {"a"}, ∅⟩ ⟨∅, {"b"}, ∅⟩).2 = [] ∧
    (update_child ⟨["labels"], [], true⟩ ⟨∅, {"a"}, ∅⟩ ⟨∅, {"b"}, ∅⟩).1 =
      (⟨∅, {"b"}, ∅⟩ : IssueFields) ∧
    (planner_run ⟨true, [⟨100, "S18", 0, 3⟩], "S", "", 18, ["alice"], 0, true⟩).2.2 = [] ∧
    applyOps (applyOps ⟨[TrackerOp.assign "x"]⟩
        (update_child ⟨["labels"], [], true⟩ ⟨∅, {"a"}, ∅⟩ ⟨∅, {"b"}, ∅⟩).2)
      (planner_run ⟨true, [⟨100, "S18", 0, 3⟩], "S", "", 18, ["alice"], 0, true⟩).2.2 =
      (⟨[TrackerOp.assign "x"]⟩ : TrackerState) := by
  have h := dry_run_is_write_free ⟨["labels"], [], true⟩ ⟨∅, {"a"}, ∅⟩ ⟨∅, {"b"}, ∅⟩
    ⟨true, [⟨100, "S18", 0, 3⟩], "S", "", 18, ["alice"], 0, true⟩ rfl rfl
  exact ⟨h.1, h.2.1, h.2.2.1, h.2.2.2 ⟨[TrackerOp.assign "x"]⟩⟩

/-!
### Properties of the recursive child walk
-/

mutual
/-- The walk output, prefixed with the root key, is exactly the preorder
key list of the tree. -/
theorem key_cons_walk (t : ITree) : t.key :: walk_children t = allKeys t := by
  cases t with
  | node k cs =>
    show k :: walkForest cs = k :: forestKeys cs
    rw [walkForest_eq_forestKeys cs]

/-- The loop body of the walk yields the keys of the whole forest. -/
theorem walkForest_eq_forestKeys (f : IForest) : walkForest f = forestKeys f := by
  cases f with
  | nil => rfl
  | cons c cs =>
    show c.key :: walk_children c ++ walkForest cs = allKeys c ++ forestKeys cs
    rw [← key_cons_walk c, walkForest_eq_forestKeys cs]
end

/-- Claim C5: on a finite issue tree with pairwise distinct keys, the
recursive child walk records every descendant of the root (the root
itself excluded) exactly once — the resulting children list has no
duplicates and contains precisely the non-root keys of the tree — and,
the visited keys being pairwise distinct, the walk never revisits an
already-visited key. -/
theorem walk_children_visits_exactly_once (t : ITree)
    (h : (allKeys t).Nodup) :
    (walk_children t).Nodup ∧
    ∀ k, k ∈ walk_children t ↔ k ∈ allKeys t ∧ k ≠ t.key := by
  have hw := key_cons_walk t
  rw [← hw] at h
  rcases List.nodup_cons.mp h with ⟨hnot, hnd⟩
  refine ⟨hnd, fun k => ⟨fun hk => ⟨?_, ?_⟩, fun hk => ?_⟩⟩
  · rw [← hw]
    exact List.mem_cons_of_mem _ hk
  · rintro rfl
    exact hnot hk
  · rcases hk with ⟨hk, hne⟩
    rw [← hw] at hk
    rcases List.mem_cons.mp hk with h1 | h2
    · exact absurd h1 hne
    · exact h2

/-- A depth-2 tree: root R with children A and B, A itself having the
child C. -/
def treeEx : ITree :=
  .node "R" (.cons (.node "A" (.cons (.node "C" .nil) .nil))
    (.cons (.node "B" .nil) .nil))

/-- Closed instance of `walk_children_visits_exactly_once` on the
concrete depth-2 tree `treeEx`. -/
theorem walk_children_visits_exactly_once_witness :
    (walk_children treeEx).Nodup ∧
    ("C" ∈ walk_children treeEx ↔ "C" ∈ allKeys treeEx ∧ "C" ≠ treeEx.key) :=
  ⟨(walk_children_visits_exactly_once treeEx (by decide)).1,
   (walk_children_visits_exactly_once treeEx (by decide)).2 "C"⟩

/-!
### Properties of the duty rotation planner
-/

/-- Erase the end date of a sprint (used to state that the planner never
consults sprint durations). -/
def eraseEndDate (s : Sprint) : Sprint := { s with endDate := 0 }

theorem eraseEndDate_name (s : Sprint) : (eraseEndDate s).name = s.name := rfl

theorem eraseEndDate_id (s : Sprint) : (eraseEndDate s).id = s.id := rfl

theorem eraseEndDate_startDate (s : Sprint) :
    (eraseEndDate s).startDate = s.startDate := rfl

/-- The assignment loop is blind to end dates: it behaves identically on
two inputs whose sprint lists differ only in their end dates (and that
agree on the template, numbering and dry-run fields it reads). -/
theorem assign_loop_eraseEnd (inp1 inp2 : PlannerInput)
    (hs : inp1.sprints = inp2.sprints.map eraseEndDate)
    (hpre : inp1.templatePre = inp2.templatePre)
    (hpost : inp1.templatePost = inp2.templatePost)
    (hnum : inp1.sprint_starting_number = inp2.sprint_starting_number)
    (hdry : inp1.dry_run = inp2.dry_run) (q : List String) :
    ∀ idx : Nat, assign_loop inp1 idx q = assign_loop inp2 idx q := by
  induction q with
  | nil => intro idx; rfl
  | cons mail rest ih =>
    intro idx
    simp only [assign_loop, sprint_name, hs, hpre, hpost, hnum, hdry]
    rw [List.find?_map]
    simp only [Function.comp_def, eraseEndDate_name]
    cases hf : inp2.sprints.find? (fun s =>
        s.name == inp2.templatePre ++
          toString (inp2.sprint_starting_number + idx / 2) ++ inp2.templatePost) with
    | none => rfl
    | some sp =>
      simp only [Option.map_some', eraseEndDate_startDate, eraseEndDate_id,
        ih (idx + 1)]

/-- The whole planner run is blind to end dates. -/
theorem planner_run_eraseEnd (inp : PlannerInput) :
    planner_run { inp with sprints := inp.sprints.map eraseEndDate } =
      planner_run inp := by
  simp only [planner_run, sprint_name, List.length_map]
  refine if_congr Iff.rfl rfl (if_congr Iff.rfl rfl ?_)
  rw [List.find?_map]
  simp only [Function.comp_def, eraseEndDate_name]
  cases hf : inp.sprints.find? (fun s =>
      s.name == inp.templatePre ++
        toString (inp.sprint_starting_number + 0) ++ inp.templatePost) with
  | none => rfl
  | some sp =>
    simp only [Option.map_some']
    cases inp.existing_in_first with
    | zero =>
      dsimp only
      rw [assign_loop_eraseEnd
        { inp with sprints := inp.sprints.map eraseEndDate, existing_in_first := 0 }
        inp rfl rfl rfl rfl rfl inp.assignee_queue 0]
    | succ n =>
      cases n with
      | zero =>
        dsimp only
        rw [assign_loop_eraseEnd
          { inp with sprints := inp.sprints.map eraseEndDate, existing_in_first := 1 }
          inp rfl rfl rfl rfl rfl inp.assignee_queue 1]
      | succ m => rfl

/-- Every slot the loop creates is dated from the start date of a sprint
of the input list found by name: `startDate + 8` for an odd queue index
(week 2), `startDate + 1` for an even one (week 1). -/
theorem assign_loop_slot_shape (inp : PlannerInput) (q : List String) :
    ∀ (idx : Nat) (s : Slot), s ∈ (assign_loop inp idx q).1 →
      ∃ sp, sp ∈ inp.sprints ∧ sp.name = s.sprintName ∧
        s.slotDate = sp.startDate + (if s.idx % 2 == 1 then 8 else 1) := by
  induction q with
  | nil => intro idx s hs; simp [assign_loop] at hs
  | cons mail rest ih =>
    intro idx s hs
    simp only [assign_loop] at hs
    cases hf : inp.sprints.find? (fun t => t.name == sprint_name inp (idx / 2)) with
    | none => rw [hf] at hs; simp at hs
    | some sp =>
      rw [hf] at hs
      simp only [List.mem_cons] at hs
      rcases hs with rfl | hs
      · have hp := List.find?_some hf
        have hname : sp.name = sprint_name inp (idx / 2) := eq_of_beq hp
        exact ⟨sp, List.mem_of_find?_eq_some hf, hname, rfl⟩
      · exact ih (idx + 1) s hs

/-- The queue indices of the created slots are consecutive, starting at
the start index of the loop (`enumerate(queue, start_from)`). -/
theorem assign_loop_idx_map (inp : PlannerInput) (q : List String) :
    ∀ idx : Nat, (assign_loop inp idx q).1.map Slot.idx =
      List.range' idx (assign_loop inp idx q).1.length := by
  induction q with
  | nil => intro idx; rfl
  | cons mail rest ih =>
    intro idx
    simp only [assign_loop]
    cases hf : inp.sprints.find? (fun t => t.name == sprint_name inp (idx / 2)) with
    | none => rfl
    | some sp =>
      simp only [List.map_cons, List.length_cons, ih (idx + 1), List.range'_succ]

/-- Among any run of consecutive indices, at most two share one sprint
count `c` (namely `2 * c` and `2 * c + 1`). -/
theorem countP_div_two_le_two (i k c : Nat) :
    (List.range' i k).countP (fun j => j / 2 == c) ≤ 2 := by
  have hnd : (List.range' i k).Nodup := List.nodup_range' i k 1 (by norm_num)
  rw [List.countP_eq_length_filter]
  have hnd2 : ((List.range' i k).filter (fun j => j / 2 == c)).Nodup :=
    hnd.filter (fun j => j / 2 == c)
  have hsub : ((List.range' i k).filter (fun j => j / 2 == c)).toFinset ⊆
      ({2 * c, 2 * c + 1} : Finset Nat) := by
    intro j hj
    simp only [List.mem_toFinset, List.mem_filter] at hj
    have h2 : j / 2 = c := eq_of_beq hj.2
    simp only [Finset.mem_insert, Finset.mem_singleton]
    omega
  calc ((List.range' i k).filter (fun j => j / 2 == c)).length
      = ((List.range' i k).filter (fun j => j / 2 == c)).toFinset.card :=
        (List.toFinset_card_of_nodup hnd2).symm
    _ ≤ ({2 * c, 2 * c + 1} : Finset Nat).card := Finset.card_le_card hsub
    _ ≤ 2 := le_trans (Finset.card_insert_le _ _) (by simp)

/-- The loop gives at most two slots to any one sprint count. -/
theorem assign_loop_per_sprint_le_two (inp : PlannerInput) (q : List String)
    (idx c : Nat) :
    ((assign_loop inp idx q).1.filter (fun s => s.idx / 2 == c)).length ≤ 2 := by
  rw [← List.countP_eq_length_filter]
  have h2 : (assign_loop inp idx q).1.countP (fun s => s.idx / 2 == c) =
      ((assign_loop inp idx q).1.map Slot.idx).countP (fun j => j / 2 == c) :=
    (List.countP_map (fun j => j / 2 == c) Slot.idx (assign_loop inp idx q).1).symm
  rw [h2, assign_loop_idx_map]
  exact countP_div_two_le_two idx _ c

/-- Every slot of a full planner run has the shape computed by the loop:
sprint found by name in the input list, date from its start date and the
queue-index parity. -/
theorem planner_run_slot_shape (inp : PlannerInput) (s : Slot)
    (hs : s ∈ (planner_run inp).2.1) :
    ∃ sp, sp ∈ inp.sprints ∧ sp.name = s.sprintName ∧
      s.slotDate = sp.startDate + (if s.idx % 2 == 1 then 8 else 1) := by
  unfold planner_run at hs
  split at hs
  · simp at hs
  · split at hs
    · simp at hs
    · split at hs
      · simp at hs
      · split at hs
        · exact assign_loop_slot_shape inp inp.assignee_queue 0 s hs
        · exact assign_loop_slot_shape inp inp.assignee_queue 1 s hs
        · simp at hs

/-- A full planner run gives at most two slots to any one sprint count. -/
theorem planner_run_per_sprint_le_two (inp : PlannerInput) (c : Nat) :
    ((planner_run inp).2.1.filter (fun s => s.idx / 2 == c)).length ≤ 2 := by
  unfold planner_run
  split
  · simp
  · split
    · simp
    · split
      · simp
      · split
        · exact assign_loop_per_sprint_le_two inp inp.assignee_queue 0 c
        · exact assign_loop_per_sprint_le_two inp inp.assignee_queue 1 c
        · simp

/-- A three-day sprint (shorter than 8 days). -/
def sprintS18 : Sprint := ⟨100, "S18", 0, 3⟩

/-- The following sprint, of standard ten-day duration. -/
def sprintS19 : Sprint := ⟨101, "S19", 14, 24⟩

/-- Planner input: epic found, sprints S18 and S19 numbered from 18, two
assignees, no pre-existing duty issues, not a dry run. -/
def inpShort : PlannerInput :=
  ⟨true, [sprintS18, sprintS19], "S", "", 18, ["alice", "bob"], 0, false⟩

/-- Claim C6: the spec states that the planner derives the per-sprint slot
count from its duration (start and end dates), a sprint shorter than
8 days receiving at most one duty slot.  The code never reads the end
date: sprint S18 lasts 3 days, yet the run gives it two slots (queue
indices 0 and 1). -/
theorem short_sprint_gets_two_slots :
    sprintS18.endDate - sprintS18.startDate < 8 ∧
    ((planner_run inpShort).2.1.filter (fun s => s.sprintName == "S18")).length = 2 := by
  decide

/-- Claim C6 amended: the planner never consults sprint durations — the
run is unchanged when every end date is erased; each created slot is
dated from the start date of a sprint of the board list found by name,
`startDate + 8` days for an odd queue index (week 2) and `startDate + 1`
day for an even one (week 1); and each sprint number receives at most
two slots, regardless of how long the sprint is. -/
theorem planner_ignores_sprint_duration (inp : PlannerInput) :
    planner_run { inp with sprints := inp.sprints.map eraseEndDate } =
      planner_run inp ∧
    (∀ s, s ∈ (planner_run inp).2.1 →
      ∃ sp, sp ∈ inp.sprints ∧ sp.name = s.sprintName ∧
        s.slotDate = sp.startDate + (if s.idx % 2 == 1 then 8 else 1)) ∧
    ∀ c : Nat, ((planner_run inp).2.1.filter (fun s => s.idx / 2 == c)).length ≤ 2 :=
  ⟨planner_run_eraseEnd inp, fun s hs => planner_run_slot_shape inp s hs,
   fun c => planner_run_per_sprint_le_two inp c⟩

/-- Closed instance of `planner_ignores_sprint_duration` at the concrete
input `inpShort`. -/
theorem planner_ignores_sprint_duration_witness :
    planner_run { inpShort with sprints := inpShort.sprints.map eraseEndDate } =
      planner_run inpShort ∧
    ((planner_run inpShort).2.1.filter (fun s => s.idx / 2 == 0)).length ≤ 2 :=
  ⟨(planner_ignores_sprint_duration inpShort).1,
   (planner_ignores_sprint_duration inpShort).2.2 0⟩

/-- Claim C7: once the epic is resolved, the sprint-count guard passes
and the starting sprint is found by name, the `match` on the number of
existing duty issues in the starting sprint drives the run: two or more
is fatal with the distinct exit code 5 before any slot is processed or
write emitted; at most one makes the loop enumerate the queue from start
index 0 (count 0: both slots of the starting sprint open) or 1 (count 1:
the week-one slot is skipped), the slot indices being consecutive from
that start; with count 1 no created slot has index 0, so only the
missing second-week slot of the starting sprint is filled. -/
theorem planner_existing_count_policy (inp : PlannerInput)
    (h1 : inp.epicFound = true)
    (h2 : ¬ 2 * inp.sprints.length < inp.assignee_queue.length + 2)
    (h3 : (inp.sprints.find? (fun s => s.name == sprint_name inp 0)).isSome = true) :
    (2 ≤ inp.existing_in_first → planner_run inp = (.exited 5, [], [])) ∧
    (inp.existing_in_first ≤ 1 →
      (planner_run inp).2.1.map Slot.idx =
        List.range' inp.existing_in_first (planner_run inp).2.1.length) ∧
    (inp.existing_in_first = 1 → ∀ s, s ∈ (planner_run inp).2.1 → 1 ≤ s.idx) := by
  rcases Option.isSome_iff_exists.mp h3 with ⟨sp, hsp⟩
  refine ⟨fun hge => ?_, fun hle => ?_, fun hone s hs => ?_⟩
  · obtain ⟨m, hm⟩ : ∃ m, inp.existing_in_first = m + 2 :=
      ⟨inp.existing_in_first - 2, by omega⟩
    unfold planner_run
    rw [h1, hm]
    simp only [Bool.not_true, Bool.false_eq_true, if_false, if_neg h2, hsp]
  · rcases Nat.le_one_iff_eq_zero_or_eq_one.mp hle with h0 | h0 <;>
    · unfold planner_run
      rw [h1, h0]
      simp only [Bool.not_true, Bool.false_eq_true, if_false, if_neg h2, hsp]
      exact assign_loop_idx_map inp inp.assignee_queue _
  · unfold planner_run at hs
    rw [h1, hone] at hs
    simp only [Bool.not_true, Bool.false_eq_true, if_false, if_neg h2, hsp] at hs
    have hmem : s.idx ∈ (assign_loop inp 1 inp.assignee_queue).1.map Slot.idx :=
      List.mem_map_of_mem Slot.idx hs
    rw [assign_loop_idx_map inp inp.assignee_queue 1] at hmem
    exact (List.mem_range'_1.mp hmem).1

/-- Planner input like `inpShort` but with exactly one existing duty
issue already present in the starting sprint. -/
def inpSecondWeek : PlannerInput :=
  ⟨true, [sprintS18, sprintS19], "S", "", 18, ["alice", "bob"], 1, false⟩

/-- Closed instance of `planner_existing_count_policy`: with one existing
duty issue the slot indices start at 1, and the first slot created is a
second-week slot. -/
theorem planner_existing_count_policy_witness :
    (planner_run inpSecondWeek).2.1.map Slot.idx =
      List.range' 1 (planner_run inpSecondWeek).2.1.length ∧
    1 ≤ (⟨"alice", 100, "S18", 1, 8⟩ : Slot).idx := by
  have h := planner_existing_count_policy inpSecondWeek rfl (by decide) (by decide)
  exact ⟨h.2.1 (by decide), h.2.2 rfl ⟨"alice", 100, "S18", 1, 8⟩ (by decide)⟩

/-- Planner input with four queued names but a single sprint. -/
def inpOverflow : PlannerInput :=
  ⟨true, [sprintS18], "S", "", 18, ["ann", "ben", "cat", "dan"], 0, false⟩

/-- Claim C8: the spec states that a queue longer than the available
slots makes the run end early, print the leftover names and not fail.
The code instead fails: with four names and one sprint it takes the
fatal exit path with code 3 (a failing, non-zero exit) and creates
nothing; no leftover names are reported. -/
theorem overflow_queue_run_fails :
    planner_run inpOverflow = (.exited 3, [], []) ∧
    RunResult.exited 3 ≠ RunResult.finished := by decide

/-- Claim C8 amended: when the sprint-count guard
`len(sprints) < n / 2 + 1` fires because the queue holds more names than
the sprints can absorb, the run is fatal: it exits with the distinct
code 3 before processing any slot or emitting any write (the leftover
names are not printed — only counts appear in the message). -/
theorem overflow_queue_exits_three (inp : PlannerInput)
    (h1 : inp.epicFound = true)
    (h2 : 2 * inp.sprints.length < inp.assignee_queue.length + 2) :
    planner_run inp = (.exited 3, [], []) := by
  unfold planner_run
  rw [h1]
  simp only [Bool.not_true, Bool.false_eq_true, if_false, if_pos h2]

/-- Closed instance of `overflow_queue_exits_three` at `inpOverflow`. -/
theorem overflow_queue_exits_three_witness :
    planner_run inpOverflow = (.exited 3, [], []) :=
  overflow_queue_exits_three inpOverflow rfl (by decide)

/-!
### Properties of the configuration resolver
-/

/-- A value that is falsy in the YAML file and absent from the
environment resolves to `None` with the missing-setting error
recorded. -/
theorem falsy_read_missing (y : Yaml) (env : Env) (name : String)
    (hy : (y.get name).truthy = false)
    (he : env.get ("JIRA_" ++ name.toUpper) = none) :
    read_from_yaml_or_environment y env name = (.null, [missingError name]) := by
  simp only [read_from_yaml_or_environment, hy, he, Bool.false_eq_true, if_false]
  rfl

/-- Whatever typed reader `configure()` uses, such a setting contributes
exactly the missing-setting error. -/
theorem read_setting_errors_missing (y : Yaml) (env : Env) (name : String)
    (kind : SettingKind)
    (hread : read_from_yaml_or_environment y env name =
      (.null, [missingError name])) :
    read_setting_errors y env (name, kind) = [missingError name] := by
  cases kind <;>
    simp only [read_setting_errors, read_str_from_yaml_or_environment,
      read_int_from_yaml_or_environment, read_list_from_yaml_or_environment,
      read_bool_from_yaml_or_environment, hread]

/-- Claim C9: a configuration key whose YAML value is falsy in Python
(false, 0, the empty string, the empty list — or the key is absent) is
treated as unset: the resolver falls back to the `JIRA_`-prefixed
environment variable, and when that is unset too the value resolves to
`None`, the missing-setting error for that key is recorded, and
`JiraConnector.__init__` exits with the error report instead of ever
constructing the tracker client. -/
theorem falsy_yaml_setting_reported_missing (y : Yaml) (env : Env)
    (name : String) (kind : SettingKind)
    (settings : List (String × SettingKind))
    (hy : (y.get name).truthy = false)
    (he : env.get ("JIRA_" ++ name.toUpper) = none)
    (hm : (name, kind) ∈ settings) :
    read_from_yaml_or_environment y env name = (.null, [missingError name]) ∧
    missingError name ∈ config_errors y env settings ∧
    connector_init y env settings ≠ .connected := by
  have hread := falsy_read_missing y env name hy he
  have hkind := read_setting_errors_missing y env name kind hread
  have hmem : missingError name ∈ config_errors y env settings := by
    unfold config_errors
    refine List.mem_flatMap.mpr ⟨(name, kind), List.mem_append_right _ hm, ?_⟩
    rw [hkind]
    exact List.mem_singleton_self _
  refine ⟨hread, hmem, ?_⟩
  unfold connector_init
  rw [if_neg]
  · exact fun h => InitResult.noConfusion h
  · intro hempty
    rw [List.isEmpty_iff.mp hempty] at hmem
    exact List.not_mem_nil _ hmem

/-- A configuration file that sets the three base settings and an
explicit `dry_run: false`. -/
def yamlDryFalse : Yaml :=
  ⟨[("base_url", .str "https://jira.example.com"), ("username", .str "u"),
    ("api_token", .str "t"), ("dry_run", .bool false)]⟩

/-- An empty process environment. -/
def envEmpty : Env := ⟨[]⟩

/-- Closed instance of `falsy_yaml_setting_reported_missing`: an explicit
`dry_run: false` in the file with no `JIRA_DRY_RUN` variable is reported
as a missing setting and aborts initialisation. -/
theorem falsy_yaml_setting_reported_missing_witness :
    read_from_yaml_or_environment yamlDryFalse envEmpty "dry_run" =
      (.null, [missingError "dry_run"]) ∧
    missingError "dry_run" ∈
      config_errors yamlDryFalse envEmpty [("dry_run", SettingKind.bool)] ∧
    connector_init yamlDryFalse envEmpty [("dry_run", SettingKind.bool)] ≠
      .connected :=
  falsy_yaml_setting_reported_missing yamlDryFalse envEmpty "dry_run"
    SettingKind.bool [("dry_run", SettingKind.bool)]
    (by decide) (by decide) (by decide)

/-- Claim C10: the integer reader parses only `str` values; any resolved
value that is not a string — a native YAML integer in particular —
silently becomes `0`, and the not-an-integer error is not recorded (the
error list stays exactly the one of the underlying read). -/
theorem read_int_nonstring_is_zero (y : Yaml) (env : Env) (name : String)
    (h : ((read_from_yaml_or_environment y env name).1).isStr = false) :
    read_int_from_yaml_or_environment y env name =
      (0, (read_from_yaml_or_environment y env name).2) := by
  cases hv : (read_from_yaml_or_environment y env name).1 with
  | str s => rw [hv] at h; simp [YamlValue.isStr] at h
  | null => simp only [read_int_from_yaml_or_environment, hv]
  | bool b => simp only [read_int_from_yaml_or_environment, hv]
  | int n => simp only [read_int_from_yaml_or_environment, hv]
  | list l => simp only [read_int_from_yaml_or_environment, hv]

/-- A configuration file carrying `sprint_starting_number: 18` as a
native YAML integer. -/
def yamlSprintNum : Yaml := ⟨[("sprint_starting_number", .int 18)]⟩

/-- Closed instance of `read_int_nonstring_is_zero`: the native integer
18 resolves to the integer reader result 0 with no error recorded. -/
theorem read_int_nonstring_is_zero_witness :
    read_int_from_yaml_or_environment yamlSprintNum envEmpty
      "sprint_starting_number" = (0, []) := by
  have h := read_int_nonstring_is_zero yamlSprintNum envEmpty
    "sprint_starting_number" (by decide)
  rw [h]
  decide
